import Mathlib

/-!
Shallow embedding of the image-store subsystem of `src/images/store.go`
(package `images` of the fakelink repository).

The Go code has two implementations of the `Store` interface:

* `InMemoryStore` — a Go map from key to `image.Image`; `Get` on a missing
  key yields the interface zero value `nil`, modelled here as `none`.
* `S3Store` — talks to an S3-compatible backend through the AWS SDK and
  encodes/decodes images as JPEG.  The SDK and the remote service are not
  part of the repository; they are modelled as an abstract client record
  of fallible operations (`S3Client`), and each store operation is
  embedded as a function that additionally reports the exact list of
  network requests it issued, so that claims about which calls happen
  (and in which order) are statable.  An "honest" backend semantics
  (`S3State`) interprets those requests for round-trip claims.
-/

namespace Fakelink

/-- A decoded raster image (`image.Image` in Go): a pixel grid.  Two images
are "pixel-identical" exactly when they are equal. -/
structure Image where
  pixels : List (List Nat)
deriving DecidableEq

/-- Go `error` values, abstracted to their message. -/
abbrev GoError := String

/-- An encoded byte stream (`[]byte` / `bytes.Buffer` contents in Go). -/
abbrev Bytes := List Nat

/-! ### Model of `fmt.Sprintf` restricted to `%s` verbs

Both URL syntheses in the source go through `fmt.Sprintf` with string
patterns whose only verbs are `%s`.  `sprintfS` substitutes the arguments
for successive `%s` verbs; a `%s` verb left after the arguments run out
renders as `%!s(MISSING)`, as in Go. -/

def sprintfS : List Char → List String → List Char
  | [], _ => []
  | '%' :: 's' :: rest, a :: args => a.data ++ sprintfS rest args
  | '%' :: 's' :: rest, [] => "%!s(MISSING)".data ++ sprintfS rest []
  | c :: rest, args => c :: sprintfS rest args

/-- `fmt.Sprintf` with a single argument. -/
def goSprintf1 (pat : String) (arg : String) : String :=
  ⟨sprintfS pat.data [arg]⟩

/-! ### `InMemoryStore` -/

/-- `InMemoryStore`: a Go map from key to image.  Looking up a missing key
in a Go map returns the zero value (`nil` for the `image.Image` interface),
so the mapping is modelled as `String → Option Image` with `none` for
absent keys. -/
structure InMemoryStore where
  images : String → Option Image

/-- `NewInMemoryStore` creates an empty memory store. -/
def NewInMemoryStore : InMemoryStore :=
  { images := fun _ => none }

/-- Result of `InMemoryStore.Put`: the mutated receiver together with the
named return values `(url string, err error)`. -/
structure MemPutResult where
  store : InMemoryStore
  url : String
  err : Option GoError

/-- `Put` adds a new image to the memory repository and returns a fake URL:
`store.images[key] = img; url = fmt.Sprintf("http://127.0.0.1/%s", key)`. -/
def InMemoryStore.Put (store : InMemoryStore) (key : String) (img : Image) :
    MemPutResult :=
  { store := ⟨fun k => if k = key then some img else store.images k⟩
    url := goSprintf1 "http://127.0.0.1/%s" key
    err := none }

/-- `Get` retrieves an image from the repository: `return store.images[key]`. -/
def InMemoryStore.Get (store : InMemoryStore) (key : String) : Option Image :=
  store.images key

/-- `clear` replaces the map with a fresh empty one:
`store.images = make(map[string]image.Image)`. -/
def InMemoryStore.clear (_store : InMemoryStore) : InMemoryStore :=
  { images := fun _ => none }

/-! ### `S3Store`

`const bucketName = "link-images"`. -/

def bucketName : String := "link-images"

/-- One request issued by the store to the S3-compatible backend.  A
`deleteObjects` batch entry is an `*s3.ObjectIdentifier` pointer; `none`
models a `nil` pointer (the slack produced by the pre-sized slice in
`clear`). -/
inductive S3Request where
  | headBucket (bucket : String)
  | createBucket (bucket : String)
  | putObject (bucket : String) (key : String) (body : Bytes)
  | getObject (bucket : String) (key : String)
  | listObjects (bucket : String)
  | deleteObjects (bucket : String) (objects : List (Option String))
deriving DecidableEq

/-- The S3 client (`*s3.S3` from the AWS SDK): the backend's response to
each kind of request.  The SDK and the remote service are outside the
repository, so they are abstracted to arbitrary fallible functions;
`listObjects` yields the keys of the listing's `Contents`. -/
structure S3Client where
  headBucket : String → Except GoError Unit
  createBucket : String → Except GoError Unit
  putObject : String → String → Bytes → Except GoError Unit
  getObject : String → String → Except GoError Bytes
  listObjects : String → Except GoError (List String)
  deleteObjects : String → List (Option String) → Except GoError Unit

/-- The `image/jpeg` codec (`jpeg.Encode` / `jpeg.Decode`), abstracted:
library code outside the repository. -/
structure JpegCodec where
  encode : Image → Except GoError Bytes
  decode : Bytes → Except GoError Image

/-- `S3Store` holds the client handle and the URL pattern
`publicURL + "/" + bucketName + "/%s"`; the client is threaded explicitly
into each operation. -/
structure S3Store where
  urlPattern : String

/-- Result of `S3Store.createBucket`: the requests issued, and `some e`
when the `log.Fatal` path (bucket creation failure) is hit. -/
structure BucketBootResult where
  requests : List S3Request
  fatal : Option GoError

/-- `createBucket`: `HeadBucket` first; only if that errors, `CreateBucket`;
a creation error is `log.Fatal` (process abort). -/
def S3Store.createBucket (_store : S3Store) (client : S3Client) :
    BucketBootResult :=
  match client.headBucket bucketName with
  | .ok _ => ⟨[.headBucket bucketName], none⟩
  | .error _ =>
    match client.createBucket bucketName with
    | .ok _ => ⟨[.headBucket bucketName, .createBucket bucketName], none⟩
    | .error e => ⟨[.headBucket bucketName, .createBucket bucketName], some e⟩

/-- `NewS3Store` builds the store with
`urlPattern = publicURL + "/" + bucketName + "/%s"` and runs
`store.createBucket()`.  The aws config (host, port, credentials) only
parameterizes the abstracted client. -/
def NewS3Store (publicURL : String) (client : S3Client) :
    S3Store × BucketBootResult :=
  let store : S3Store := ⟨publicURL ++ "/" ++ bucketName ++ "/%s"⟩
  (store, store.createBucket client)

/-- Result of `S3Store.Put`: the named returns `(url string, err error)`
plus the list of network requests issued. -/
structure S3PutResult where
  url : String
  err : Option GoError
  requests : List S3Request

/-- `Put` uploads an image: `jpeg.Encode` into a buffer (an encode error
returns with `url` still at its zero value `""` and no request issued);
then `PutObject` (an error again returns `url = ""`); on success
`url = fmt.Sprintf(store.urlPattern, key)`. -/
def S3Store.Put (store : S3Store) (codec : JpegCodec) (client : S3Client)
    (key : String) (img : Image) : S3PutResult :=
  match codec.encode img with
  | .error e => ⟨"", some e, []⟩
  | .ok buf =>
    match client.putObject bucketName key buf with
    | .error e => ⟨"", some e, [.putObject bucketName key buf]⟩
    | .ok _ => ⟨goSprintf1 store.urlPattern key, none, [.putObject bucketName key buf]⟩

/-- Result of `S3Store.Get`: the returned image (`nil` = `none`) plus the
requests issued. -/
structure S3GetResult where
  img : Option Image
  requests : List S3Request

/-- `Get` requests the object and decodes it as JPEG; a retrieval or decode
error is logged and `nil` is returned — no error reaches the caller. -/
def S3Store.Get (_store : S3Store) (codec : JpegCodec) (client : S3Client)
    (key : String) : S3GetResult :=
  match client.getObject bucketName key with
  | .error _ => ⟨none, [.getObject bucketName key]⟩
  | .ok body =>
    match codec.decode body with
    | .error _ => ⟨none, [.getObject bucketName key]⟩
    | .ok img => ⟨some img, [.getObject bucketName key]⟩

/-- Result of `S3Store.clear`: the requests issued, and `some e` when a
`log.Fatalf` path (list or delete failure) is hit. -/
structure S3ClearResult where
  requests : List S3Request
  fatal : Option GoError

/-- The deletion batch built by `clear`:
`objects := make([]*s3.ObjectIdentifier, len(out.Contents))` allocates
`len(Contents)` nil pointers, and the loop appends one identifier per
listed key after them. -/
def clearBatch (contents : List String) : List (Option String) :=
  List.replicate contents.length (none : Option String) ++ contents.map some

/-- `clear`: `ListObjects` (an error is `log.Fatalf`), then a single
`DeleteObjects` with the batch of `clearBatch` (an error is `log.Fatalf`). -/
def S3Store.clear (_store : S3Store) (client : S3Client) : S3ClearResult :=
  match client.listObjects bucketName with
  | .error e => ⟨[.listObjects bucketName], some e⟩
  | .ok contents =>
    match client.deleteObjects bucketName (clearBatch contents) with
    | .error e =>
      ⟨[.listObjects bucketName, .deleteObjects bucketName (clearBatch contents)], some e⟩
    | .ok _ =>
      ⟨[.listObjects bucketName, .deleteObjects bucketName (clearBatch contents)], none⟩

/-! ### Honest backend semantics

Modelled from the spec: the S3-compatible service itself is an external
collaborator (not under `src/`).  §4.3 of the spec describes it as a
key→object container per bucket: `PutObject` stores bytes under the key,
`GetObject` retrieves them or fails when absent, `ListObjects` lists every
key, and a bulk `DeleteObjects` removes each identified key. -/

structure S3State where
  bucketExists : Bool
  objects : List (String × Bytes)
deriving DecidableEq

/-- The backend state reached by a freshly constructed store against an
empty endpoint: the bucket exists and is empty. -/
def freshS3State : S3State := ⟨true, []⟩

/-- The client a backend in state `st` implements: every operation answers
from the state and succeeds, lookups of absent objects fail. -/
def S3State.client (st : S3State) : S3Client where
  headBucket := fun _ => if st.bucketExists then .ok () else .error "NotFound"
  createBucket := fun _ => .ok ()
  putObject := fun _ _ _ => .ok ()
  getObject := fun _ key =>
    match st.objects.lookup key with
    | some body => .ok body
    | none => .error "NoSuchKey"
  listObjects := fun _ => .ok (st.objects.map Prod.fst)
  deleteObjects := fun _ _ => .ok ()

/-- How one request mutates the backend state: uploads insert, bulk deletes
remove every key named by a non-nil identifier, bucket creation marks the
bucket present; reads change nothing. -/
def S3State.applyRequest (st : S3State) : S3Request → S3State
  | .putObject _ key body =>
    ⟨st.bucketExists, (key, body) :: st.objects.filter (fun kv => decide (kv.1 ≠ key))⟩
  | .deleteObjects _ batch =>
    ⟨st.bucketExists, st.objects.filter (fun kv => decide (some kv.1 ∉ batch))⟩
  | .createBucket _ => ⟨true, st.objects⟩
  | _ => st

def S3State.applyRequests (st : S3State) (rs : List S3Request) : S3State :=
  rs.foldl S3State.applyRequest st

/-! ### Concrete fixtures for witnesses -/

/-- A small concrete image ("red square"). -/
def testImage : Image := ⟨[[255, 0, 0]]⟩

/-- A codec whose encode and decode always succeed. -/
def okCodec : JpegCodec := ⟨fun _ => .ok [7], fun _ => .ok testImage⟩

/-- A codec whose encode and decode always fail. -/
def failCodec : JpegCodec := ⟨fun _ => .error "encfail", fun _ => .error "decfail"⟩

/-- A client for which every backend call fails. -/
def failClient : S3Client :=
  ⟨fun _ => .error "down", fun _ => .error "down", fun _ _ _ => .error "down",
   fun _ _ => .error "down", fun _ => .error "down", fun _ _ => .error "down"⟩

/-- A backend state holding one stored object. -/
def oneObjState : S3State := ⟨true, [("missing", [9])]⟩

end Fakelink

namespace Fakelink

/-! ### Helper lemmas on the `fmt.Sprintf` model -/

theorem sprintfS_cons_of_ne (c : Char) (rest : List Char) (args : List String)
    (hc : c ≠ '%') : sprintfS (c :: rest) args = c :: sprintfS rest args := by
  rw [sprintfS.eq_def]
  split <;> simp_all

theorem sprintfS_append_of_not_mem (p q : List Char) (args : List String)
    (hp : '%' ∉ p) : sprintfS (p ++ q) args = p ++ sprintfS q args := by
  induction p with
  | nil => rfl
  | cons c p ih =>
    have hc : c ≠ '%' := fun h => hp (h ▸ List.mem_cons_self c p)
    have hp' : '%' ∉ p := fun h => hp (List.mem_cons_of_mem _ h)
    rw [List.cons_append, sprintfS_cons_of_ne c _ _ hc, ih hp']
    rfl

/-- Substituting a single argument into `pat ++ "%s"` appends the argument,
provided the fixed part of the pattern holds no `%`. -/
theorem goSprintf1_append (pre arg : String) (h : '%' ∉ pre.data) :
    goSprintf1 (pre ++ "%s") arg = pre ++ arg := by
  show String.mk (sprintfS (pre.data ++ ['%', 's']) [arg]) = String.mk (pre.data ++ arg.data)
  rw [sprintfS_append_of_not_mem _ _ _ h]
  show String.mk (pre.data ++ (arg.data ++ sprintfS [] [])) = _
  rw [show sprintfS [] [] = [] from rfl, List.append_nil]

/-- C1: `Put(k, i)` on the in-memory store followed by `Get(k)` returns an
image pixel-identical to `i`. -/
theorem mem_put_get_roundtrip (s : InMemoryStore) (k : String) (i : Image) :
    ((s.Put k i).store).Get k = some i := by
  simp [InMemoryStore.Put, InMemoryStore.Get]

/-- C2: `InMemoryStore.Put` always succeeds (`err = nil`) and returns
exactly `"http://127.0.0.1/" ++ key`; in particular `Put("abc", img)`
returns `"http://127.0.0.1/abc"`. -/
theorem mem_put_url (s : InMemoryStore) (k : String) (i : Image) :
    (s.Put k i).err = none ∧ (s.Put k i).url = "http://127.0.0.1/" ++ k ∧
      (s.Put "abc" i).url = "http://127.0.0.1/abc" := by
  have hurl : ∀ k' : String, (s.Put k' i).url = "http://127.0.0.1/" ++ k' := by
    intro k'
    show goSprintf1 "http://127.0.0.1/%s" k' = "http://127.0.0.1/" ++ k'
    have hpat : ("http://127.0.0.1/%s" : String) = "http://127.0.0.1/" ++ "%s" := by decide
    rw [hpat, goSprintf1_append _ _ (by decide)]
  refine ⟨rfl, hurl k, ?_⟩
  rw [hurl "abc"]
  decide

/-- C3: a `Get` for a key never written, or whose retrieval or decoding
fails, returns the absent value `none` and surfaces no error, on both
backends; an S3 retrieval failure is indistinguishable from a key never
written to the in-memory store. -/
theorem get_absent_never_errors (k : String) (store : S3Store)
    (codec : JpegCodec) (client : S3Client) :
    NewInMemoryStore.Get k = none ∧
    (∀ s : InMemoryStore, s.images k = none → s.Get k = none) ∧
    (∀ e, client.getObject bucketName k = .error e →
      (store.Get codec client k).img = none) ∧
    (∀ body e, client.getObject bucketName k = .ok body →
      codec.decode body = .error e → (store.Get codec client k).img = none) ∧
    (store.Get codec freshS3State.client k).img = NewInMemoryStore.Get k := by
  refine ⟨rfl, fun s h => h, ?_, ?_, rfl⟩
  · intro e h
    simp [S3Store.Get, h]
  · intro body e h1 h2
    simp [S3Store.Get, h1, h2]

/-- Witness for C3 at the concrete key `"missing"`: a failing retrieval and
a failing decode both yield `none`. -/
theorem get_absent_never_errors_witness :
    (S3Store.Get ⟨""⟩ okCodec failClient "missing").img = none ∧
    (S3Store.Get ⟨""⟩ failCodec oneObjState.client "missing").img = none := by
  constructor
  · exact (get_absent_never_errors "missing" ⟨""⟩ okCodec failClient).2.2.1 "down" rfl
  · exact (get_absent_never_errors "missing" ⟨""⟩ failCodec
      oneObjState.client).2.2.2.1 [9] "decfail" rfl rfl

/-- C4: a successful `S3Store.Put` returns
`"<publicURL>/link-images/<key>"`, the configured public-URL base
followed by the fixed bucket name and the key (for a base that holds no
`%` verb of its own). -/
theorem s3_put_url (publicURL key : String) (codec : JpegCodec)
    (client : S3Client) (img : Image) (buf : Bytes)
    (hpct : '%' ∉ publicURL.data)
    (henc : codec.encode img = .ok buf)
    (hput : client.putObject bucketName key buf = .ok ()) :
    ((NewS3Store publicURL client).1.Put codec client key img).url
      = publicURL ++ "/link-images/" ++ key := by
  have hpat : publicURL ++ "/" ++ bucketName ++ "/%s"
      = (publicURL ++ "/link-images/") ++ "%s" := by
    apply String.ext
    simp only [String.data_append, List.append_assoc]
    congr 1
  have hnp : '%' ∉ (publicURL ++ "/link-images/").data := by
    rw [String.data_append]
    intro hmem
    rcases List.mem_append.mp hmem with h1 | h2
    · exact hpct h1
    · exact absurd h2 (by decide)
  show (S3Store.Put ⟨publicURL ++ "/" ++ bucketName ++ "/%s"⟩ codec client key img).url = _
  simp only [S3Store.Put, henc, hput]
  rw [hpat, goSprintf1_append _ _ hnp]

/-- Witness for C4: base `"http://localhost:9000"` and key `"xyz"` give
`"http://localhost:9000/link-images/xyz"`. -/
theorem s3_put_url_witness :
    ((NewS3Store "http://localhost:9000" freshS3State.client).1.Put okCodec
        freshS3State.client "xyz" testImage).url
      = "http://localhost:9000/link-images/xyz" := by
  rw [s3_put_url "http://localhost:9000" "xyz" okCodec freshS3State.client
    testImage [7] (by decide) rfl rfl]
  decide

/-- C5: an encode failure in `S3Store.Put` is returned to the caller and no
network request is issued; a backend write failure is likewise returned. -/
theorem s3_put_failure (store : S3Store) (codec : JpegCodec)
    (client : S3Client) (key : String) (img : Image) :
    (∀ e, codec.encode img = .error e →
      (store.Put codec client key img).err = some e ∧
      (store.Put codec client key img).requests = []) ∧
    (∀ buf e, codec.encode img = .ok buf →
      client.putObject bucketName key buf = .error e →
      (store.Put codec client key img).err = some e) := by
  constructor
  · intro e h
    simp [S3Store.Put, h]
  · intro buf e h1 h2
    simp [S3Store.Put, h1, h2]

/-- Witness for C5: a failing codec surfaces `"encfail"` with no request
issued; a failing backend surfaces `"down"`. -/
theorem s3_put_failure_witness :
    ((S3Store.Put ⟨""⟩ failCodec failClient "k" testImage).err = some "encfail" ∧
      (S3Store.Put ⟨""⟩ failCodec failClient "k" testImage).requests = []) ∧
    (S3Store.Put ⟨""⟩ okCodec failClient "k" testImage).err = some "down" := by
  constructor
  · exact (s3_put_failure ⟨""⟩ failCodec failClient "k" testImage).1 "encfail" rfl
  · exact (s3_put_failure ⟨""⟩ okCodec failClient "k" testImage).2 [7] "down" rfl rfl

/-- C6: `clear` leaves both backends indistinguishable from a freshly
constructed, empty store: the in-memory store literally becomes
`NewInMemoryStore` and every `Get` yields `none`; an honest backend of any
state (with its bucket present) ends in `freshS3State` after the requests
`clear` issues, which is exactly the state fresh construction reaches
against an empty endpoint, and every `Get` against it yields `none`. -/
theorem clear_resets (s : InMemoryStore) (st : S3State) (store : S3Store)
    (codec : JpegCodec) (publicURL : String) (hb : st.bucketExists = true) :
    s.clear = NewInMemoryStore ∧
    (∀ k, s.clear.Get k = none) ∧
    (store.clear st.client).fatal = none ∧
    st.applyRequests (store.clear st.client).requests = freshS3State ∧
    (∀ k, (store.Get codec freshS3State.client k).img = none) ∧
    (⟨false, []⟩ : S3State).applyRequests
        ((NewS3Store publicURL (⟨false, []⟩ : S3State).client).2.requests)
      = freshS3State := by
  have hfil : st.objects.filter (fun kv =>
      decide (some kv.1 ∉ clearBatch (st.objects.map Prod.fst))) = [] := by
    rw [List.filter_eq_nil_iff]
    intro kv hkv
    simp only [decide_eq_true_eq, Decidable.not_not]
    exact List.mem_append.mpr (Or.inr
      (List.mem_map_of_mem some (List.mem_map_of_mem Prod.fst hkv)))
  have hstep : st.applyRequests (store.clear st.client).requests
      = ⟨st.bucketExists, st.objects.filter (fun kv =>
          decide (some kv.1 ∉ clearBatch (st.objects.map Prod.fst)))⟩ := rfl
  refine ⟨rfl, fun k => rfl, rfl, ?_, fun k => rfl, rfl⟩
  rw [hstep, hfil, hb]
  rfl

/-- Witness for C6: clearing the backend holding one object empties it into
the freshly constructed state. -/
theorem clear_resets_witness :
    oneObjState.applyRequests (S3Store.clear ⟨""⟩ oneObjState.client).requests
      = freshS3State :=
  (clear_resets NewInMemoryStore oneObjState ⟨""⟩ okCodec "u" rfl).2.2.2.1

/-- C7 counterexample: `clear()` against an already-empty backend does
submit a `DeleteObjects` request (with an empty batch) — the claim that no
spurious delete request is submitted is false on the code, which calls
`DeleteObjects` unconditionally after listing. -/
theorem clear_empty_counterexample :
    S3Request.deleteObjects bucketName []
      ∈ (S3Store.clear ⟨""⟩ freshS3State.client).requests := by
  decide

/-- C7 amended: `clear()` on an already-empty object store does not fail
and its deletion batch holds no placeholder nil entries (it is empty, since
the pre-sized allocation is sized by the empty listing); however a delete
request carrying that empty batch is still submitted to the backend. -/
theorem clear_empty_amended (store : S3Store) (client : S3Client)
    (hlist : client.listObjects bucketName = .ok [])
    (hdel : client.deleteObjects bucketName [] = .ok ()) :
    (store.clear client).fatal = none ∧
    (store.clear client).requests
      = [.listObjects bucketName, .deleteObjects bucketName []] := by
  constructor <;> simp [S3Store.clear, clearBatch, hlist, hdel]

/-- Witness for C7 (amended): the honest empty backend. -/
theorem clear_empty_amended_witness :
    (S3Store.clear ⟨""⟩ freshS3State.client).fatal = none ∧
    (S3Store.clear ⟨""⟩ freshS3State.client).requests
      = [.listObjects bucketName, .deleteObjects bucketName []] :=
  clear_empty_amended ⟨""⟩ freshS3State.client rfl rfl

/-- C8: bucket bootstrap is idempotent: the existence check (`HeadBucket`)
is always the first request, and when it succeeds no `CreateBucket` request
is made at all. -/
theorem create_bucket_idempotent (store : S3Store) (client : S3Client) :
    (store.createBucket client).requests.head? = some (.headBucket bucketName) ∧
    (client.headBucket bucketName = .ok () →
      (store.createBucket client).requests = [.headBucket bucketName] ∧
      (store.createBucket client).fatal = none) := by
  cases h : client.headBucket bucketName with
  | ok u =>
    refine ⟨?_, fun _ => ?_⟩ <;> simp [S3Store.createBucket, h]
  | error e =>
    refine ⟨?_, fun hok => ?_⟩
    · cases h2 : client.createBucket bucketName <;>
        simp [S3Store.createBucket, h, h2]
    · exact Except.noConfusion hok

/-- Witness for C8: against a backend whose bucket exists, construction
issues exactly the existence check. -/
theorem create_bucket_idempotent_witness :
    (S3Store.createBucket ⟨""⟩ freshS3State.client).requests
        = [.headBucket bucketName] ∧
      (S3Store.createBucket ⟨""⟩ freshS3State.client).fatal = none :=
  (create_bucket_idempotent ⟨""⟩ freshS3State.client).2 rfl

/-- C9 (implicit): whenever `S3Store.Put` returns a non-nil error, the
returned url is the empty string — `url` never carries a value alongside an
error. -/
theorem s3_put_no_url_with_error (store : S3Store) (codec : JpegCodec)
    (client : S3Client) (key : String) (img : Image)
    (h : (store.Put codec client key img).err ≠ none) :
    (store.Put codec client key img).url = "" := by
  cases henc : codec.encode img with
  | error e => simp [S3Store.Put, henc]
  | ok buf =>
    cases hput : client.putObject bucketName key buf with
    | error e => simp [S3Store.Put, henc, hput]
    | ok u =>
      exact absurd (by simp [S3Store.Put, henc, hput]) h

/-- Witness for C9: a failing encode yields an error and the empty url. -/
theorem s3_put_no_url_with_error_witness :
    (S3Store.Put ⟨""⟩ failCodec failClient "k" testImage).url = "" :=
  s3_put_no_url_with_error ⟨""⟩ failCodec failClient "k" testImage (by decide)

/-- C10 (implicit): `InMemoryStore.Put` leaves every other key unchanged:
for `k' ≠ k`, `Get k'` after `Put k` equals `Get k'` before. -/
theorem mem_put_frame (s : InMemoryStore) (k k' : String) (i : Image)
    (h : k' ≠ k) : ((s.Put k i).store).Get k' = s.Get k' := by
  simp [InMemoryStore.Put, InMemoryStore.Get, h]

/-- Witness for C10: putting at `"a"` does not disturb `"b"`. -/
theorem mem_put_frame_witness :
    ((NewInMemoryStore.Put "a" testImage).store).Get "b"
      = NewInMemoryStore.Get "b" :=
  mem_put_frame NewInMemoryStore "a" "b" testImage (by decide)

end Fakelink
